import Mathlib

/-!
Shallow embedding of the computer-sales inventory system in `src/app1.py`.

Modelling choices, all forced by the source:
  - Python `float` prices are modelled as `ℚ` (the program only multiplies a
    price by an integer quantity and adds such products).
  - Python `int` stock and quantities are modelled as `Int` (they may be
    negative; the program never bounds them).
  - `datetime.datetime` timestamps are modelled as `Nat`: datetimes form a
    total order that is bounded below, with `datetime.datetime.min` as the
    least element, mapped to `0`.  The call `datetime.datetime.now()` inside
    `process_sale` is an impure read of the wall clock; it is embedded as an
    explicit parameter `now` carrying the clock reading at the moment of the
    call.
  - The insertion-ordered Python dict `self.computers` is modelled as an
    association list with dict assignment (`dictSet`: replace in place at an
    existing key, else append) and dict lookup (`dictGet`: first binding for
    the key).
  - Mutation plus `raise ValueError` is embedded state-passing style:
    `process_sale` returns `Except String SaleRecord × ComputerInventory`,
    the second component being the state of the object after the call (the
    source raises before performing any mutation, so on error that state is
    the input state).
-/

namespace ComputerSales

/-- The `SaleType` enum of `app1.py`: `WHOLESALE = "wholesale"`,
`RETAIL = "retail"`. -/
inductive SaleType where
  | wholesale
  | retail
deriving DecidableEq, Repr

/-- The string `value` carried by a `SaleType` member in the source. -/
def SaleType.value : SaleType → String
  | .wholesale => "wholesale"
  | .retail => "retail"

/-- The `Computer` dataclass of `app1.py`. -/
structure Computer where
  id : String
  brand : String
  model : String
  specs : List (String × String)
  wholesale_price : ℚ
  retail_price : ℚ
  stock : Int
deriving DecidableEq, Repr

/-- One entry of `self.sales_history`: the dict built in `process_sale`
(`date`, `computer_id`, `quantity`, `sale_type` as the enum value string,
`total_price`, `unit_price`). -/
structure SaleRecord where
  date : Nat
  computer_id : String
  quantity : Int
  sale_type : String
  total_price : ℚ
  unit_price : ℚ
deriving DecidableEq, Repr

/-- Dict lookup, `self.computers[k]` guarded by `k in self.computers`:
the binding of the first occurrence of the key, if any. -/
def dictGet (d : List (String × Computer)) (k : String) : Option Computer :=
  match d with
  | [] => none
  | (k2, v) :: rest => if k2 = k then some v else dictGet rest k

/-- Dict assignment `d[k] = v` on an insertion-ordered Python dict: replace
the value at an existing key in place, otherwise append a fresh binding. -/
def dictSet (d : List (String × Computer)) (k : String) (v : Computer) :
    List (String × Computer) :=
  match d with
  | [] => [(k, v)]
  | (k2, v2) :: rest =>
      if k2 = k then (k2, v) :: rest else (k2, v2) :: dictSet rest k v

/-- Dict deletion `del d[k]` (the key occurs at most once in a dict). -/
def dictDel (d : List (String × Computer)) (k : String) :
    List (String × Computer) :=
  match d with
  | [] => []
  | (k2, v2) :: rest => if k2 = k then rest else (k2, v2) :: dictDel rest k

/-- The state of a `ComputerInventory` object: the computers dict and the
sales ledger. -/
structure ComputerInventory where
  computers : List (String × Computer)
  sales_history : List SaleRecord
deriving DecidableEq, Repr

/-- State produced by `ComputerInventory.__init__`. -/
def ComputerInventory.init : ComputerInventory :=
  { computers := [], sales_history := [] }

/-- Message of the `ValueError` raised on an unknown id. -/
def itemNotFoundMsg : String := "Computer not found"

/-- Message of the `ValueError` raised when stock is too small. -/
def insufficientStockMsg : String := "Insufficient stock"

/-- The method `add_computer`: `self.computers[computer.id] = computer`. -/
def add_computer (inv : ComputerInventory) (c : Computer) : ComputerInventory :=
  { inv with computers := dictSet inv.computers c.id c }

/-- The method `remove_computer`: delete the entry when present, no-op
otherwise. -/
def remove_computer (inv : ComputerInventory) (computer_id : String) :
    ComputerInventory :=
  { inv with computers := dictDel inv.computers computer_id }

/-- The method `update_stock`: add `quantity` to the stock of the named
computer when present and return `True`, otherwise return `False`. -/
def update_stock (inv : ComputerInventory) (computer_id : String)
    (quantity : Int) : Bool × ComputerInventory :=
  match dictGet inv.computers computer_id with
  | some c =>
      (true, { inv with computers :=
                 (dictSet inv.computers computer_id
                   { c with stock := c.stock + quantity }) })
  | none => (false, inv)

/-- The method `process_sale`.  `now` is the wall-clock reading taken by
`datetime.datetime.now()` at the moment of the call.  The second component
of the result is the object state after the call. -/
def process_sale (inv : ComputerInventory) (computer_id : String)
    (quantity : Int) (sale_type : SaleType) (now : Nat) :
    Except String SaleRecord × ComputerInventory :=
  match dictGet inv.computers computer_id with
  | none => (.error itemNotFoundMsg, inv)
  | some computer =>
      if computer.stock < quantity then
        (.error insufficientStockMsg, inv)
      else
        let price := if sale_type = SaleType.wholesale then
            computer.wholesale_price
          else
            computer.retail_price
        let total_price := price * (quantity : ℚ)
        let sale_record : SaleRecord :=
          { date := now
            computer_id := computer_id
            quantity := quantity
            sale_type := sale_type.value
            total_price := total_price
            unit_price := price }
        (.ok sale_record,
          { computers := dictSet inv.computers computer_id
              { computer with stock := computer.stock - quantity }
            sales_history := inv.sales_history ++ [sale_record] })

/-- Result shape of `get_inventory_report`. -/
structure InventoryReport where
  total_computers : Nat
  total_stock : Int
  total_wholesale_value : ℚ
  total_retail_value : ℚ
deriving DecidableEq, Repr

/-- The method `get_inventory_report`: the four aggregations over the
current computers dict.  The embedding is a pure function of the state: it
returns no new state, mirroring that the source only reads `self`. -/
def get_inventory_report (inv : ComputerInventory) : InventoryReport :=
  { total_computers := inv.computers.length
    total_stock := (inv.computers.map (fun p => p.2.stock)).sum
    total_wholesale_value :=
      (inv.computers.map (fun p => (p.2.stock : ℚ) * p.2.wholesale_price)).sum
    total_retail_value :=
      (inv.computers.map (fun p => (p.2.stock : ℚ) * p.2.retail_price)).sum }

/-- Result shape of `get_sales_report`. -/
structure SalesReport where
  total_sales : Nat
  wholesale_revenue : ℚ
  retail_revenue : ℚ
  total_revenue : ℚ
deriving DecidableEq, Repr

/-- The method `get_sales_report`.  The Python default `start_date = None`
is replaced by `datetime.datetime.min`, the least timestamp, embedded as
`0`; so the argument is an `Option Nat` and `none` means `0`.  Like the
source, it filters the ledger by `sale.date >= start_date`, counts the
matches, and sums `total_price` over those whose `sale_type` string equals
the wholesale (resp. retail) enum value. -/
def get_sales_report (inv : ComputerInventory) (start_date : Option Nat) :
    SalesReport :=
  let sd := start_date.getD 0
  let filtered_sales := inv.sales_history.filter (fun s => sd ≤ s.date)
  let wholesale_sales :=
    ((filtered_sales.filter
        (fun s => s.sale_type = SaleType.wholesale.value)).map
      (fun s => s.total_price)).sum
  let retail_sales :=
    ((filtered_sales.filter
        (fun s => s.sale_type = SaleType.retail.value)).map
      (fun s => s.total_price)).sum
  { total_sales := filtered_sales.length
    wholesale_revenue := wholesale_sales
    retail_revenue := retail_sales
    total_revenue := wholesale_sales + retail_sales }

/-- Identifier of the sample computer from the demonstration driver. -/
def LP001 : String := "LP001"

/-- An identifier absent from the demonstration catalog. -/
def UNKNOWN : String := "UNKNOWN"

/-- The sample computer built in `main` of `app1.py`. -/
def demoComputer : Computer :=
  { id := LP001
    brand := "LaptopBrand"
    model := "Pro2024"
    specs := [("processor", "Intel i7"), ("ram", "16GB"),
              ("storage", "512GB SSD")]
    wholesale_price := 800
    retail_price := 1200
    stock := 10 }

/-- The demonstration inventory: a fresh `ComputerInventory` holding only
the sample computer. -/
def demoInv : ComputerInventory := add_computer ComputerInventory.init demoComputer

/-- Demonstration state after the wholesale sale of 3 units at clock 1. -/
def demoInv2 : ComputerInventory :=
  (process_sale demoInv LP001 3 SaleType.wholesale 1).2

/-- Demonstration state after the further retail sale of 1 unit at clock 2. -/
def demoInv3 : ComputerInventory :=
  (process_sale demoInv2 LP001 1 SaleType.retail 2).2

/-- All stocks in the catalog are non-negative. -/
def stocksNonneg (inv : ComputerInventory) : Prop :=
  ∀ p ∈ inv.computers, 0 ≤ p.2.stock

instance (inv : ComputerInventory) : Decidable (stocksNonneg inv) :=
  inferInstanceAs (Decidable (∀ p ∈ inv.computers, 0 ≤ p.2.stock))

/-- Arguments of one `process_sale` call, with the wall-clock reading the
call makes. -/
structure SaleCall where
  computer_id : String
  quantity : Int
  sale_type : SaleType
  now : Nat
deriving DecidableEq, Repr

/-- Run a sequence of `process_sale` calls, threading the object state.  A
failing call raises without having mutated anything, so it leaves the state
unchanged; hence any sequence of successful calls is a run of this
function, and results about all runs cover all such sequences. -/
def runSales (inv : ComputerInventory) : List SaleCall → ComputerInventory
  | [] => inv
  | c :: rest =>
      runSales (process_sale inv c.computer_id c.quantity c.sale_type c.now).2 rest

/-- Independent recomputation of the catalog size, by direct recursion. -/
def spec_item_count : List (String × Computer) → Nat
  | [] => 0
  | _ :: rest => spec_item_count rest + 1

/-- Independent recomputation of the total stock, by direct recursion. -/
def spec_total_stock : List (String × Computer) → Int
  | [] => 0
  | p :: rest => p.2.stock + spec_total_stock rest

/-- Independent recomputation of the total wholesale value
(stock times wholesale price, summed), by direct recursion. -/
def spec_wholesale_value : List (String × Computer) → ℚ
  | [] => 0
  | p :: rest => (p.2.stock : ℚ) * p.2.wholesale_price + spec_wholesale_value rest

/-- Independent recomputation of the total retail value
(stock times retail price, summed), by direct recursion. -/
def spec_retail_value : List (String × Computer) → ℚ
  | [] => 0
  | p :: rest => (p.2.stock : ℚ) * p.2.retail_price + spec_retail_value rest

/-- Independent count of the ledger records with timestamp at least
`start`, by direct recursion. -/
def spec_count_from (start : Nat) : List SaleRecord → Nat
  | [] => 0
  | s :: rest =>
      (if start ≤ s.date then 1 else 0) + spec_count_from start rest

/-- Independent sum of `total_price` over the ledger records with timestamp
at least `start` whose sale-type string is `ty`, by direct recursion. -/
def spec_sum_from (start : Nat) (ty : String) : List SaleRecord → ℚ
  | [] => 0
  | s :: rest =>
      (if start ≤ s.date ∧ s.sale_type = ty then s.total_price else 0) +
        spec_sum_from start ty rest

/-- Every binding of `dictSet d k v` is either the new binding `(k, v)` or a
binding already in `d`. -/
theorem mem_dictSet {d : List (String × Computer)} {k : String} {v : Computer}
    {p : String × Computer} (hp : p ∈ dictSet d k v) : p = (k, v) ∨ p ∈ d := by
  induction d with
  | nil => simpa [dictSet] using hp
  | cons hd tl ih =>
      obtain ⟨k2, v2⟩ := hd
      by_cases h1 : k2 = k
      · rw [dictSet, if_pos h1] at hp
        rcases List.mem_cons.mp hp with h | h
        · exact Or.inl (by simp [h, h1])
        · exact Or.inr (List.mem_cons_of_mem _ h)
      · rw [dictSet, if_neg h1] at hp
        rcases List.mem_cons.mp hp with h | h
        · exact Or.inr (h ▸ List.mem_cons_self _ _)
        · rcases ih h with h2 | h2
          · exact Or.inl h2
          · exact Or.inr (List.mem_cons_of_mem _ h2)

/-- Looking up the key just assigned returns the assigned value. -/
theorem dictGet_dictSet_self (d : List (String × Computer)) (k : String)
    (v : Computer) : dictGet (dictSet d k v) k = some v := by
  induction d with
  | nil => simp [dictSet, dictGet]
  | cons hd tl ih =>
      obtain ⟨k2, v2⟩ := hd
      by_cases h1 : k2 = k
      · rw [dictSet, if_pos h1, dictGet, if_pos h1]
      · rw [dictSet, if_neg h1, dictGet, if_neg h1]
        exact ih

/-- Helper: a successful step of `process_sale` never drives a stock
negative, because success requires `quantity ≤ stock` and leaves the other
computers unchanged; a failing step leaves the state unchanged. -/
theorem stocksNonneg_process_sale (inv : ComputerInventory)
    (computer_id : String) (quantity : Int) (st : SaleType) (now : Nat)
    (h : stocksNonneg inv) :
    stocksNonneg (process_sale inv computer_id quantity st now).2 := by
  cases hgd : dictGet inv.computers computer_id with
  | none =>
      intro p hp
      rw [process_sale, hgd] at hp
      exact h p hp
  | some c =>
      by_cases hlt : c.stock < quantity
      · intro p hp
        simp only [process_sale, hgd, if_pos hlt] at hp
        exact h p hp
      · intro p hp
        simp only [process_sale, hgd, if_neg hlt] at hp
        rcases mem_dictSet hp with h2 | h2
        · subst h2
          simpa using by omega
        · exact h p h2

/-- C1: for every item in the catalog, stock is never negative after any
sequence of `process_sale` calls whose quantities are positive, starting
from a state where every stock is non-negative.  Failed calls leave the
state unchanged, so `runSales` over an arbitrary call list covers every
sequence of successful calls.  (The positivity precondition is kept as the
claim states it; the step lemma shows success alone already suffices.) -/
theorem stock_never_negative (inv : ComputerInventory) (calls : List SaleCall)
    (h0 : stocksNonneg inv) (hq : ∀ c ∈ calls, 0 < c.quantity) :
    stocksNonneg (runSales inv calls) := by
  induction calls generalizing inv with
  | nil => simpa [runSales] using h0
  | cons c rest ih =>
      rw [runSales]
      exact ih _ (stocksNonneg_process_sale _ _ _ _ _ h0)
        (fun d hd => hq d (List.mem_cons_of_mem _ hd))

/-- Demonstration call sequence: the two sales of the driver, a sale on an
unknown id, and an oversized sale. -/
def demoCalls : List SaleCall :=
  [⟨LP001, 3, SaleType.wholesale, 1⟩, ⟨LP001, 1, SaleType.retail, 2⟩,
   ⟨UNKNOWN, 2, SaleType.retail, 3⟩, ⟨LP001, 100, SaleType.retail, 4⟩]

/-- Witness for C1 at the demonstration inventory and call sequence. -/
theorem stock_never_negative_witness :
    stocksNonneg demoInv ∧ (∀ c ∈ demoCalls, 0 < c.quantity) ∧
      stocksNonneg (runSales demoInv demoCalls) :=
  ⟨by decide, by decide,
    stock_never_negative demoInv demoCalls (by decide) (by decide)⟩

/-- C2: a `SaleRecord` returned by a successful `process_sale` stores
`total_price = unit_price * quantity` exactly, `unit_price` is the item
wholesale price when the sale type is wholesale and the retail price
otherwise, and the stored quantity, item id and sale-type string equal the
arguments of the call. -/
theorem process_sale_record_consistent (inv : ComputerInventory)
    (computer_id : String) (quantity : Int) (st : SaleType) (now : Nat)
    (c : Computer) (r : SaleRecord)
    (hc : dictGet inv.computers computer_id = some c)
    (hr : (process_sale inv computer_id quantity st now).1 = Except.ok r) :
    r.total_price = r.unit_price * (quantity : ℚ) ∧
    r.unit_price = (if st = SaleType.wholesale then c.wholesale_price
                    else c.retail_price) ∧
    r.quantity = quantity ∧ r.computer_id = computer_id ∧
    r.sale_type = st.value := by
  by_cases hlt : c.stock < quantity
  · simp only [process_sale, hc, if_pos hlt] at hr
    exact absurd hr (by simp)
  · simp only [process_sale, hc, if_neg hlt, Except.ok.injEq] at hr
    subst hr
    simp

/-- Witness for C2 at the demonstration wholesale sale of the driver. -/
theorem process_sale_record_consistent_witness :
    dictGet demoInv.computers LP001 = some demoComputer ∧
    ∃ r, (process_sale demoInv LP001 3 SaleType.wholesale 1).1 = Except.ok r ∧
      (r.total_price = r.unit_price * ((3 : Int) : ℚ) ∧
       r.unit_price = (if SaleType.wholesale = SaleType.wholesale then
           demoComputer.wholesale_price else demoComputer.retail_price) ∧
       r.quantity = 3 ∧ r.computer_id = LP001 ∧
       r.sale_type = SaleType.wholesale.value) := by
  have hres : (process_sale demoInv LP001 3 SaleType.wholesale 1).1 =
      Except.ok { date := 1, computer_id := LP001, quantity := 3,
                  sale_type := SaleType.wholesale.value,
                  total_price := demoComputer.wholesale_price * ((3 : Int) : ℚ),
                  unit_price := demoComputer.wholesale_price } := rfl
  exact ⟨by decide, _, hres,
    process_sale_record_consistent demoInv LP001 3 SaleType.wholesale 1
      demoComputer _ (by decide) hres⟩

/-- C3: `process_sale` on an id absent from the catalog raises the
item-not-found `ValueError` and returns with the catalog and the ledger
exactly as they were: the state component of the result is the input state
itself. -/
theorem process_sale_not_found (inv : ComputerInventory)
    (computer_id : String) (quantity : Int) (st : SaleType) (now : Nat)
    (h : dictGet inv.computers computer_id = none) :
    process_sale inv computer_id quantity st now =
      (Except.error itemNotFoundMsg, inv) := by
  simp only [process_sale, h]

/-- Witness for C3 at the demonstration inventory and the unknown id of the
spec scenario. -/
theorem process_sale_not_found_witness :
    dictGet demoInv.computers UNKNOWN = none ∧
      process_sale demoInv UNKNOWN 1 SaleType.retail 0 =
        (Except.error itemNotFoundMsg, demoInv) :=
  ⟨by decide, process_sale_not_found demoInv UNKNOWN 1 SaleType.retail 0 (by decide)⟩

/-- C4: for an item present in the catalog, a request with quantity above
the current stock raises the insufficient-stock `ValueError` and returns
the input state unchanged (all items, whole ledger); a request with
quantity equal to the current stock succeeds and leaves that stock at
zero. -/
theorem process_sale_insufficient_stock (inv : ComputerInventory)
    (computer_id : String) (quantity : Int) (st : SaleType) (now : Nat)
    (c : Computer) (hc : dictGet inv.computers computer_id = some c) :
    (c.stock < quantity →
       process_sale inv computer_id quantity st now =
         (Except.error insufficientStockMsg, inv)) ∧
    (c.stock = quantity →
       ∃ r, (process_sale inv computer_id quantity st now).1 = Except.ok r ∧
         dictGet (process_sale inv computer_id quantity st now).2.computers
             computer_id = some { c with stock := 0 }) := by
  constructor
  · intro hlt
    simp only [process_sale, hc, if_pos hlt]
  · intro heq
    have hnlt : ¬ c.stock < quantity := by omega
    refine ⟨{ date := now, computer_id := computer_id, quantity := quantity,
              sale_type := st.value,
              total_price := (if st = SaleType.wholesale then c.wholesale_price
                              else c.retail_price) * (quantity : ℚ),
              unit_price := if st = SaleType.wholesale then c.wholesale_price
                            else c.retail_price }, ?_, ?_⟩
    · simp only [process_sale, hc, if_neg hnlt]
    · simp only [process_sale, hc, if_neg hnlt, dictGet_dictSet_self,
        Option.some.injEq]
      rw [heq, sub_self]

/-- Witness for C4 at the demonstration inventory: quantity 100 exceeds the
stock of 10, and quantity 10 empties it. -/
theorem process_sale_insufficient_stock_witness :
    (demoComputer.stock < 100 →
       process_sale demoInv LP001 100 SaleType.retail 0 =
         (Except.error insufficientStockMsg, demoInv)) ∧
    (demoComputer.stock = 100 →
       ∃ r, (process_sale demoInv LP001 100 SaleType.retail 0).1 = Except.ok r ∧
         dictGet (process_sale demoInv LP001 100 SaleType.retail 0).2.computers
             LP001 = some { demoComputer with stock := 0 }) :=
  process_sale_insufficient_stock demoInv LP001 100 SaleType.retail 0
    demoComputer (by decide)

/-- C8: `update_stock` adds the (possibly negative) delta to the stock of
an existing item with no bounds check and returns true; on a missing item
it returns false and changes nothing. -/
theorem update_stock_correct (inv : ComputerInventory) (computer_id : String)
    (delta : Int) :
    (∀ c, dictGet inv.computers computer_id = some c →
       update_stock inv computer_id delta =
         (true, { inv with computers :=
                    (dictSet inv.computers computer_id
                      { c with stock := c.stock + delta }) })) ∧
    (dictGet inv.computers computer_id = none →
       update_stock inv computer_id delta = (false, inv)) := by
  constructor
  · intro c hc
    simp only [update_stock, hc]
  · intro h
    simp only [update_stock, h]

/-- Witness for C8: a delta of -15 on the demonstration stock of 10 is
accepted and drives the stored stock to -5. -/
theorem update_stock_correct_witness :
    dictGet demoInv.computers LP001 = some demoComputer ∧
    update_stock demoInv LP001 (-15) =
      (true, { demoInv with computers :=
                 (dictSet demoInv.computers LP001
                   { demoComputer with stock := demoComputer.stock + (-15) }) }) ∧
    demoComputer.stock + (-15) = -5 :=
  ⟨by decide,
   (update_stock_correct demoInv LP001 (-15)).1 demoComputer (by decide),
   by decide⟩

/-- C10: `process_sale` performs no positivity check on the quantity.  It
raises exactly when the item is absent or its stock is below the quantity;
for an existing item with stock at least the quantity — including a zero or
negative quantity — it succeeds, appends one record, and replaces the stock
by stock minus quantity (so a negative quantity increases stock). -/
theorem process_sale_no_quantity_check (inv : ComputerInventory)
    (computer_id : String) (quantity : Int) (st : SaleType) (now : Nat) :
    ((∃ e, (process_sale inv computer_id quantity st now).1 = Except.error e) ↔
       dictGet inv.computers computer_id = none ∨
         ∃ c, dictGet inv.computers computer_id = some c ∧
           c.stock < quantity) ∧
    (∀ c, dictGet inv.computers computer_id = some c → quantity ≤ c.stock →
       ∃ r, process_sale inv computer_id quantity st now =
         (Except.ok r,
           { computers := (dictSet inv.computers computer_id
               { c with stock := c.stock - quantity })
             sales_history := inv.sales_history ++ [r] })) := by
  constructor
  · cases hgd : dictGet inv.computers computer_id with
    | none => simp [process_sale, hgd]
    | some c =>
        by_cases hlt : c.stock < quantity
        · simp [process_sale, hgd, if_pos hlt, hlt]
        · simp [process_sale, hgd, if_neg hlt, hlt]
  · intro c hc hle
    have hnlt : ¬ c.stock < quantity := not_lt.mpr hle
    refine ⟨{ date := now, computer_id := computer_id, quantity := quantity,
              sale_type := st.value,
              total_price := (if st = SaleType.wholesale then c.wholesale_price
                              else c.retail_price) * (quantity : ℚ),
              unit_price := if st = SaleType.wholesale then c.wholesale_price
                            else c.retail_price }, ?_⟩
    simp only [process_sale, hc, if_neg hnlt]

/-- Witness for C10: the quantity -5 on a stock of 10 is accepted and the
stored stock becomes 15. -/
theorem process_sale_no_quantity_check_witness :
    dictGet demoInv.computers LP001 = some demoComputer ∧
    (-5 : Int) ≤ demoComputer.stock ∧
    (∃ r, process_sale demoInv LP001 (-5) SaleType.retail 7 =
       (Except.ok r,
         { computers := (dictSet demoInv.computers LP001
             { demoComputer with stock := demoComputer.stock - (-5) })
           sales_history := demoInv.sales_history ++ [r] })) ∧
    demoComputer.stock - (-5) = 15 :=
  ⟨by decide, by decide,
   (process_sale_no_quantity_check demoInv LP001 (-5) SaleType.retail 7).2
     demoComputer (by decide) (by decide),
   by decide⟩

/-- Counterexample for C9: the timestamp written into the ledger is the
wall-clock reading `datetime.datetime.now()` taken inside `process_sale`,
not a caller-supplied logical value.  Two calls identical in state and in
every argument the caller passes in the source (id, quantity, sale type),
made at wall-clock readings 0 and 1, append records with different
timestamps — so the recorded timestamp tracks the wall clock. -/
theorem process_sale_wall_clock_counterexample :
    ((process_sale demoInv LP001 1 SaleType.retail 0).2.sales_history.map
        (fun r => r.date)) ≠
      ((process_sale demoInv LP001 1 SaleType.retail 1).2.sales_history.map
        (fun r => r.date)) := by
  decide

/-- C9 amended: the recorded timestamp equals the wall-clock reading taken
by `datetime.datetime.now()` at the moment of the call; consequently the
outcome of `process_sale` is a function of the prior state, the arguments,
and that clock reading only, so two runs agreeing on all of these produce
identical SaleRecords and identical resulting state. -/
theorem process_sale_timestamp_is_wall_clock (inv : ComputerInventory)
    (computer_id : String) (quantity : Int) (st : SaleType) (now : Nat)
    (r : SaleRecord)
    (hr : (process_sale inv computer_id quantity st now).1 = Except.ok r) :
    r.date = now := by
  cases hgd : dictGet inv.computers computer_id with
  | none =>
      rw [process_sale, hgd] at hr
      exact absurd hr (by simp)
  | some c =>
      by_cases hlt : c.stock < quantity
      · simp only [process_sale, hgd, if_pos hlt] at hr
        exact absurd hr (by simp)
      · simp only [process_sale, hgd, if_neg hlt, Except.ok.injEq] at hr
        subst hr
        rfl

/-- Witness for the amended C9 at the demonstration retail sale made at
clock reading 2. -/
theorem process_sale_timestamp_is_wall_clock_witness :
    ∃ r, (process_sale demoInv2 LP001 1 SaleType.retail 2).1 = Except.ok r ∧
      r.date = 2 := by
  have hres : (process_sale demoInv2 LP001 1 SaleType.retail 2).1 =
      Except.ok { date := 2, computer_id := LP001, quantity := 1,
                  sale_type := SaleType.retail.value,
                  total_price := demoComputer.retail_price * ((1 : Int) : ℚ),
                  unit_price := demoComputer.retail_price } := rfl
  exact ⟨_, hres,
    process_sale_timestamp_is_wall_clock demoInv2 LP001 1 SaleType.retail 2
      _ hres⟩

/-- Helper: the list length used by the report equals the independent item
count. -/
theorem length_eq_spec_item_count (l : List (String × Computer)) :
    l.length = spec_item_count l := by
  induction l with
  | nil => rfl
  | cons hd tl ih => simp [spec_item_count, ih]

/-- Helper: the mapped sum of stocks equals the independent recursion. -/
theorem sum_stock_eq_spec (l : List (String × Computer)) :
    (l.map (fun p => p.2.stock)).sum = spec_total_stock l := by
  induction l with
  | nil => rfl
  | cons hd tl ih => simp [spec_total_stock, ih]

/-- Helper: the mapped sum of stock times wholesale price equals the
independent recursion. -/
theorem sum_wholesale_eq_spec (l : List (String × Computer)) :
    (l.map (fun p => (p.2.stock : ℚ) * p.2.wholesale_price)).sum =
      spec_wholesale_value l := by
  induction l with
  | nil => rfl
  | cons hd tl ih => simp [spec_wholesale_value, ih]

/-- Helper: the mapped sum of stock times retail price equals the
independent recursion. -/
theorem sum_retail_eq_spec (l : List (String × Computer)) :
    (l.map (fun p => (p.2.stock : ℚ) * p.2.retail_price)).sum =
      spec_retail_value l := by
  induction l with
  | nil => rfl
  | cons hd tl ih => simp [spec_retail_value, ih]

/-- C5: `get_inventory_report` returns the number of items of the current
catalog and the sums of stock, of stock times wholesale price and of stock
times retail price over all items, each agreeing with an independent
recomputation; it is a pure function of the state (it returns only the
report and no new state), so it mutates neither the catalog nor the
ledger. -/
theorem get_inventory_report_correct (inv : ComputerInventory) :
    get_inventory_report inv =
      { total_computers := spec_item_count inv.computers
        total_stock := spec_total_stock inv.computers
        total_wholesale_value := spec_wholesale_value inv.computers
        total_retail_value := spec_retail_value inv.computers } := by
  simp [get_inventory_report, InventoryReport.mk.injEq,
    length_eq_spec_item_count, sum_stock_eq_spec, sum_wholesale_eq_spec,
    sum_retail_eq_spec]

/-- Helper: the length of the date filter equals the independent count of
records dated at or after the start. -/
theorem filter_length_eq_spec_count (start : Nat) (l : List SaleRecord) :
    (l.filter (fun s => start ≤ s.date)).length = spec_count_from start l := by
  induction l with
  | nil => rfl
  | cons hd tl ih =>
      by_cases h : start ≤ hd.date
      · simp [List.filter, h, spec_count_from, ih, Nat.add_comm]
      · simp [List.filter, h, spec_count_from, ih]

/-- Helper: the summed total prices over the fused date-and-type filter
equal the independent recursion that conjoins the two conditions. -/
theorem filter_sum_eq_spec_sum (start : Nat) (ty : String)
    (l : List SaleRecord) :
    ((l.filter (fun a => decide (a.sale_type = ty) &&
        decide (start ≤ a.date))).map (fun s => s.total_price)).sum =
      spec_sum_from start ty l := by
  induction l with
  | nil => rfl
  | cons hd tl ih =>
      by_cases h1 : start ≤ hd.date
      · by_cases h2 : hd.sale_type = ty
        · simp [List.filter, h1, h2, spec_sum_from, ih]
        · simp [List.filter, h1, h2, spec_sum_from, ih]
      · by_cases h2 : hd.sale_type = ty
        · simp [List.filter, h1, h2, spec_sum_from, ih]
        · simp [List.filter, h1, h2, spec_sum_from, ih]

/-- C6: for every start time, `get_sales_report` counts exactly the ledger
records with timestamp at or after the start (inclusive lower bound, no
upper bound), sums `total_price` over those among them marked wholesale and
over those marked retail, and reports as total revenue the sum of those two
sums; each aggregate agrees with an independent recomputation. -/
theorem get_sales_report_correct (inv : ComputerInventory) (t : Nat) :
    get_sales_report inv (some t) =
      { total_sales := spec_count_from t inv.sales_history
        wholesale_revenue :=
          spec_sum_from t SaleType.wholesale.value inv.sales_history
        retail_revenue :=
          spec_sum_from t SaleType.retail.value inv.sales_history
        total_revenue :=
          spec_sum_from t SaleType.wholesale.value inv.sales_history +
            spec_sum_from t SaleType.retail.value inv.sales_history } := by
  simp [get_sales_report, SalesReport.mk.injEq, Option.getD,
    List.filter_filter, filter_length_eq_spec_count, filter_sum_eq_spec_sum]

/-- Helper: a pointwise stronger filter keeps at most as many elements. -/
theorem length_filter_le_of_imp {α : Type} (p q : α → Bool) (l : List α)
    (h : ∀ a, p a = true → q a = true) :
    (l.filter p).length ≤ (l.filter q).length := by
  induction l with
  | nil => exact Nat.le_refl _
  | cons hd tl ih =>
      by_cases hp : p hd = true
      · simp [List.filter, hp, h hd hp]
        exact ih
      · simp only [List.filter, Bool.not_eq_true] at hp
        rw [List.filter, hp]
        by_cases hq : q hd = true
        · rw [List.filter, hq]
          exact Nat.le_succ_of_le ih
        · simp only [Bool.not_eq_true] at hq
          rw [List.filter, hq]
          exact ih

/-- C7: the number of sales reported is antitone in the start time: over a
fixed ledger, a later start time never reports more sales. -/
theorem get_sales_report_antitone (inv : ComputerInventory) (t1 t2 : Nat)
    (h : t1 ≤ t2) :
    (get_sales_report inv (some t2)).total_sales ≤
      (get_sales_report inv (some t1)).total_sales := by
  simp only [get_sales_report, Option.getD]
  exact length_filter_le_of_imp _ _ inv.sales_history
    (fun s hs => by
      simp only [decide_eq_true_eq] at hs ⊢
      omega)

/-- Witness for C7 on the demonstration ledger holding sales at clock
readings 1 and 2. -/
theorem get_sales_report_antitone_witness :
    0 ≤ 2 ∧
      (get_sales_report demoInv3 (some 2)).total_sales ≤
        (get_sales_report demoInv3 (some 0)).total_sales :=
  ⟨by decide, get_sales_report_antitone demoInv3 0 2 (by decide)⟩

end ComputerSales
